import Mathlib

/-!
Shallow embedding of the `wykop_screener` pipeline (`st.py`): the paginated
collector `get_user_stats` with its projection `extract_data`, the aggregation
tables built inside `generate_charts` (tag counts, daily counts, weekday
counts, hour counts), and the dispatch in `main` that guards aggregation
behind a non-empty result.

Modelling choices:
* An upstream API record (`response.json()["data"][i]`) is an association
  list from field name to an opaque string value; Python `d[k]` is
  `List.lookup`, and a raised `KeyError` is `Option.none`.
* A page response carries its HTTP status code and its `data` payload
  (`response.json().get("data", [])`, already defaulted to `[]`).
* The unbounded `while True:` loop is given explicit fuel; `none` means the
  fuel ran out before the loop hit one of its two `break`s.  The list of page
  numbers actually requested is returned alongside the accumulator so that
  claims about "no further requests" are statable.
* A parsed post (`pd.to_datetime(created_at)`) is a timestamp in minutes
  since an epoch whose day 0 is a Thursday (as for Unix time);
  `dt.date`, `dt.hour` and `dt.day_name(locale="pl_PL")` are the arithmetic
  projections `dateOf`, `hourOf`, `dayNameOf`.
* `Series.value_counts()` is "distinct values, each with its multiplicity";
  `.sort_index()` sorts by key, `.reindex(ix)` maps every label of `ix` to
  its count when present and to `NaN` (here `Option.none`) otherwise, unless
  `fill_value=0` is passed, in which case absent labels get `0`.
-/

namespace WykopScreener

/-! ### Collector (`extract_data`, `get_user_stats`) -/

/-- An upstream record: field name ↦ opaque value, as returned in a page's
`data` array. -/
abbrev UpstreamRecord := List (String × String)

/-- One page response: HTTP status code plus the `data` payload
(`response.json().get("data", [])`). -/
structure PageResponse where
  status : Nat
  data : List UpstreamRecord
deriving DecidableEq

/-- `keys_to_extract` from `extract_data` in `st.py`. -/
def keys_to_extract : List String := ["created_at", "tags", "content"]

/-- The dict comprehension `{k: d[k] for k in keys_to_extract}`: builds a
record holding exactly the three projected fields, in comprehension order;
a missing key raises `KeyError`, modelled as `none`. -/
def extractRecord (d : UpstreamRecord) : Option (List (String × String)) :=
  match d.lookup "created_at", d.lookup "tags", d.lookup "content" with
  | some a, some t, some c =>
      some [("created_at", a), ("tags", t), ("content", c)]
  | _, _, _ => none

/-- `extract_data(user_content)`: the list comprehension over all accumulated
records; the first record missing a key aborts the whole result
(`KeyError` propagates, nothing is returned). -/
def extract_data : List UpstreamRecord → Option (List (List (String × String)))
  | [] => some []
  | d :: rest =>
      match extractRecord d, extract_data rest with
      | some e, some es => some (e :: es)
      | _, _ => none

/-- The `while True:` pagination loop of `get_user_stats`, with fuel.
`pages` is the server: page number ↦ response.  Returns the pages actually
requested together with the raw accumulated `user_content`; `none` only when
the fuel ran out before a `break`. -/
def collectAux (pages : Nat → PageResponse) :
    Nat → Nat → List Nat → List UpstreamRecord →
    Option (List Nat × List UpstreamRecord)
  | 0, _, _, _ => none
  | fuel + 1, page, reqs, acc =>
      let r := pages page
      if r.status ≠ 200 then
        some (reqs ++ [page], acc)
      else if r.data = [] then
        some (reqs ++ [page], acc)
      else
        collectAux pages fuel (page + 1) (reqs ++ [page]) (acc ++ r.data)

/-- `get_user_stats(headers, username)`: run the pagination loop from page 1
with empty accumulator, then apply `extract_data` to the accumulated raw
records.  The inner `Option` is the possible `KeyError` of `extract_data`. -/
def get_user_stats (pages : Nat → PageResponse) (fuel : Nat) :
    Option (List Nat × Option (List (List (String × String)))) :=
  (collectAux pages fuel 1 [] []).map (fun p => (p.1, extract_data p.2))

/-- The loop scenario "pages 1..K-1 all answer status 200 with a non-empty
payload". -/
def okNonEmptyUpto (pages : Nat → PageResponse) (K : Nat) : Prop :=
  ∀ p ∈ List.range' 1 (K - 1), (pages p).status = 200 ∧ (pages p).data ≠ []

instance (pages : Nat → PageResponse) (K : Nat) :
    Decidable (okNonEmptyUpto pages K) := by
  unfold okNonEmptyUpto; infer_instance

/-- Projection of one upstream record, with a junk default; used to phrase
results under the assumption that every extraction succeeded. -/
def projRecord (d : UpstreamRecord) : List (String × String) :=
  (extractRecord d).getD []

/-! ### Aggregator (`generate_charts` tables) -/

/-- A post after projection and timestamp parsing: `created_at` is minutes
since an epoch whose day 0 is a Thursday. -/
structure PostRecord where
  created_at : Nat
  tags : List String
  content : String
deriving DecidableEq

/-- `df["created_at"].dt.date`, as an epoch day number. -/
def dateOf (t : Nat) : Nat := t / 1440

/-- `df["created_at"].dt.hour`. -/
def hourOf (t : Nat) : Nat := t % 1440 / 60

/-- `day_of_week_order` from `st.py`: Polish weekday names, Monday first. -/
def day_of_week_order : List String :=
  ["Poniedziałek", "Wtorek", "Środa", "Czwartek", "Piątek", "Sobota",
   "Niedziela"]

/-- `df["created_at"].dt.day_name(locale="pl_PL")`: epoch day 0 is a
Thursday, so Monday-first index of day `d` is `(d + 3) % 7`. -/
def dayNameOf (t : Nat) : String :=
  day_of_week_order.getD ((dateOf t + 3) % 7) ""

/-- `df["hour"]`. -/
def hoursOf (content : List PostRecord) : List Nat :=
  content.map (fun r => hourOf r.created_at)

/-- `df["date"]`. -/
def datesOf (content : List PostRecord) : List Nat :=
  content.map (fun r => dateOf r.created_at)

/-- `df["day_of_week"]`. -/
def dayNamesOf (content : List PostRecord) : List String :=
  content.map (fun r => dayNameOf r.created_at)

/-- Chart 5 table: `df["hour"].value_counts().sort_index()` — the distinct
hours that occur, in ascending order, each with its multiplicity.  No
reindexing over 0–23 happens in the source. -/
def hour_of_day_count (content : List PostRecord) : List (Nat × Nat) :=
  (List.insertionSort (· ≤ ·) (hoursOf content).dedup).map
    (fun h => (h, (hoursOf content).count h))

/-- Chart 2 table: `df["date"].value_counts().sort_index()
.reindex(pd.date_range(df["date"].min(), df["date"].max()), fill_value=0)` —
one row per day of the inclusive range `[min, max]`, absent days filled
with `0`. -/
def posts_over_time (content : List PostRecord) : List (Nat × Nat) :=
  match (datesOf content).min?, (datesOf content).max? with
  | some lo, some hi =>
      (List.range (hi - lo + 1)).map
        (fun i => (lo + i, (datesOf content).count (lo + i)))
  | _, _ => []

/-- Chart 4 table: `df["day_of_week"].value_counts().reindex(day_of_week_order)`
— one row per label of `day_of_week_order`; a label absent from the
`value_counts` index (count zero) gets `NaN` (`none`), since no `fill_value`
is passed. -/
def day_of_week_count (content : List PostRecord) : List (String × Option Nat) :=
  day_of_week_order.map
    (fun d =>
      (d, if (dayNamesOf content).count d = 0 then none
          else some ((dayNamesOf content).count d)))

/-- `df.explode("tags")`'s tag column: a row per tag for each post, except
that a post with an empty tag list yields a single `NaN` row. -/
def explodedTags (content : List PostRecord) : List (Option String) :=
  content.flatMap
    (fun r => if r.tags = [] then [none] else r.tags.map some)

/-- The non-null tag values that `value_counts` actually counts
(`value_counts` drops `NaN`). -/
def tagValues (content : List PostRecord) : List String :=
  (explodedTags content).filterMap id

/-- Chart 1 table: `df_tags["tags"].value_counts()` — distinct tags with
multiplicities, most frequent first. -/
def tags_count (content : List PostRecord) : List (String × Nat) :=
  (List.insertionSort
      (fun a b => (tagValues content).count b ≤ (tagValues content).count a)
      (tagValues content).dedup).map
    (fun t => (t, (tagValues content).count t))

/-! ### `main` dispatch -/

/-- What `main` does with the value returned by `get_user_stats`. -/
inductive Display where
  | charts : List PostRecord → Display
  | noData : Display
deriving DecidableEq

/-- The `if stats: generate_charts(stats) else: st.write("Nie znaleziono
danych...")` dispatch in `main`: an empty (falsy) collection is shown as the
no-data message and is never passed to `generate_charts`. -/
def mainDispatch (stats : List PostRecord) : Display :=
  if stats.isEmpty then Display.noData else Display.charts stats

/-! ### Concrete inputs used by witnesses and counterexamples -/

/-- A wholly well-formed upstream record. -/
def uOk (t tags c : String) : UpstreamRecord :=
  [("created_at", t), ("tags", tags), ("content", c), ("id", "123"),
   ("author", "m__b")]

/-- An upstream record missing the `content` key. -/
def uBad : UpstreamRecord := [("created_at", "0"), ("tags", "[]")]

/-- A two-good-pages server: page 1 has two records, page 2 one record,
page 3 is empty, everything is status 200. -/
def pagesOk : Nat → PageResponse := fun p =>
  if p = 1 then ⟨200, [uOk "t1" "[a]" "c1", uOk "t2" "[]" "c2"]⟩
  else if p = 2 then ⟨200, [uOk "t3" "[b]" "c3"]⟩
  else ⟨200, []⟩

/-- A server whose page 2 fails with status 500 after a good page 1. -/
def pagesFail : Nat → PageResponse := fun p =>
  if p = 1 then ⟨200, [uOk "t1" "[a]" "c1"]⟩
  else if p = 2 then ⟨500, [uOk "junk" "[x]" "cx"]⟩
  else ⟨200, []⟩

/-- A server whose only record lacks the `content` key. -/
def pagesBadRecord : Nat → PageResponse := fun p =>
  if p = 1 then ⟨200, [uBad]⟩ else ⟨200, []⟩

/-- A single post at 10:30 of epoch day 0. -/
def postTen : PostRecord := ⟨630, ["a", "b"], "x"⟩

/-- A single post on a Monday (epoch day 4). -/
def postMonday : PostRecord := ⟨4 * 1440, [], "y"⟩

/-- Two posts five days apart (epoch days 0 and 4), nothing in between. -/
def sparseWeek : List PostRecord :=
  [⟨600, ["a"], "p"⟩, ⟨4 * 1440 + 60, ["a", "b"], "q"⟩]

/-! ### Collector lemmas -/

/-- Core run lemma for the pagination loop: if every page strictly before `K`
answers 200 with a non-empty payload and page `K` triggers one of the two
`break`s, then with enough fuel the loop requests exactly pages
`page, …, K` and accumulates the payloads of pages `page, …, K-1`. -/
theorem collectAux_run (pages : Nat → PageResponse) (K : Nat)
    (hok : ∀ p, 1 ≤ p → p < K → (pages p).status = 200 ∧ (pages p).data ≠ [])
    (hstop : (pages K).status ≠ 200 ∨ (pages K).data = []) :
    ∀ fuel page reqs acc, 1 ≤ page → page ≤ K → K + 1 - page ≤ fuel →
      collectAux pages fuel page reqs acc =
        some (reqs ++ List.range' page (K + 1 - page),
              acc ++ ((List.range' page (K - page)).map
                        (fun p => (pages p).data)).flatten) := by
  intro fuel
  induction fuel with
  | zero => intro page reqs acc h1 h2 h3; omega
  | succ fuel ih =>
      intro page reqs acc h1 h2 h3
      by_cases hpk : page = K
      · subst hpk
        have hk1 : page + 1 - page = 1 := by omega
        have hk0 : page - page = 0 := by omega
        rcases hstop with hs | hd
        · simp [collectAux, hs, hk1, hk0, List.range']
        · simp [collectAux, hd, hk1, hk0, List.range']
      · have hlt : page < K := by omega
        obtain ⟨hs, hd⟩ := hok page h1 hlt
        have step :
            collectAux pages (fuel + 1) page reqs acc =
              collectAux pages fuel (page + 1) (reqs ++ [page])
                (acc ++ (pages page).data) := by
          simp [collectAux, hs, hd]
        rw [step,
          ih (page + 1) (reqs ++ [page]) (acc ++ (pages page).data)
            (by omega) (by omega) (by omega)]
        have e1 : K + 1 - page = (K + 1 - (page + 1)) + 1 := by omega
        have e2 : K - page = (K - (page + 1)) + 1 := by omega
        rw [e1, e2, List.range'_succ, List.range'_succ]
        simp

/-- When all three keys are present in every record, `extract_data` succeeds
and is the in-order projection of each record. -/
theorem extract_data_eq_map (l : List UpstreamRecord)
    (h : ∀ d ∈ l, (extractRecord d).isSome) :
    extract_data l = some (l.map projRecord) := by
  induction l with
  | nil => rfl
  | cons d rest ih =>
      obtain ⟨e, he⟩ :=
        Option.isSome_iff_exists.mp (h d (List.mem_cons_self d rest))
      have hrest := ih (fun x hx => h x (List.mem_cons_of_mem d hx))
      simp [extract_data, he, hrest, projRecord]

/-- A single record with a missing key makes the whole of `extract_data`
fail (the `KeyError` propagates). -/
theorem extract_data_eq_none (l : List UpstreamRecord)
    (h : ∃ d ∈ l, extractRecord d = none) :
    extract_data l = none := by
  induction l with
  | nil => simp at h
  | cons d rest ih =>
      obtain ⟨b, hb, hbad⟩ := h
      rcases List.mem_cons.mp hb with rfl | hbr
      · simp [extract_data, hbad]
      · cases he : extractRecord d <;>
          simp [extract_data, he, ih ⟨b, hbr, hbad⟩]

/-- Bridge from the decidable `range'` form of the scenario to the bound
form used by `collectAux_run`. -/
theorem okNonEmptyUpto_forall {pages : Nat → PageResponse} {K : Nat}
    (h : okNonEmptyUpto pages K) :
    ∀ p, 1 ≤ p → p < K → (pages p).status = 200 ∧ (pages p).data ≠ [] := by
  intro p h1 h2
  exact h p (by simp only [List.mem_range'_1]; omega)

/-- C1: for a successful multi-page fetch — pages `1..K-1` succeed and are
non-empty, page `K` succeeds and is empty, every record carries the three
keys — the returned collection is the page-by-page concatenation of the
per-record projections (page order, then within-page order), and its length
is the sum of the per-page record counts. -/
theorem collect_length_and_order
    (pages : Nat → PageResponse) (K fuel : Nat)
    (hK : 1 ≤ K)
    (hok : okNonEmptyUpto pages K)
    (hstat : (pages K).status = 200)
    (hempty : (pages K).data = [])
    (hkeys : ∀ p ∈ List.range' 1 (K - 1), ∀ d ∈ (pages p).data,
               (extractRecord d).isSome)
    (hfuel : K ≤ fuel) :
    get_user_stats pages fuel =
      some (List.range' 1 K,
        some (((List.range' 1 (K - 1)).map
                 (fun p => (pages p).data.map projRecord)).flatten)) ∧
    (((List.range' 1 (K - 1)).map
        (fun p => (pages p).data.map projRecord)).flatten).length =
      ((List.range' 1 (K - 1)).map
        (fun p => (pages p).data.length)).sum := by
  have hrun := collectAux_run pages K (okNonEmptyUpto_forall hok)
      (Or.inr hempty) fuel 1 [] [] (by omega) hK (by omega)
  have hK1 : K + 1 - 1 = K := by omega
  rw [hK1] at hrun
  constructor
  · unfold get_user_stats
    rw [hrun]
    simp only [Option.map_some', List.nil_append]
    have hall : ∀ d ∈ ((List.range' 1 (K - 1)).map
        (fun p => (pages p).data)).flatten, (extractRecord d).isSome := by
      intro d hd
      obtain ⟨l, hl, hdl⟩ := List.mem_flatten.mp hd
      obtain ⟨p, hp, rfl⟩ := List.mem_map.mp hl
      exact hkeys p hp d hdl
    rw [extract_data_eq_map _ hall]
    simp [List.map_flatten, List.map_map, Function.comp_def]
  · simp [List.length_flatten, List.map_map, Function.comp_def]

/-- Witness for C1 on the concrete two-page server `pagesOk`. -/
theorem collect_length_and_order_witness :
    get_user_stats pagesOk 3 =
      some (List.range' 1 3,
        some (((List.range' 1 (3 - 1)).map
                 (fun p => (pagesOk p).data.map projRecord)).flatten)) ∧
    (((List.range' 1 (3 - 1)).map
        (fun p => (pagesOk p).data.map projRecord)).flatten).length =
      ((List.range' 1 (3 - 1)).map
        (fun p => (pagesOk p).data.length)).sum :=
  collect_length_and_order pagesOk 3 3 (by decide) (by decide) (by decide)
    (by decide) (by decide) (by decide)

/-- C2: if pages `1..K-1` succeed non-empty and page `K` is the first page
answered with a non-success status, the collector requests exactly pages
`1..K` (nothing past `K`) and returns precisely the projected records of
pages `1..K-1` — the partial accumulator, not nothing. -/
theorem collect_halts_on_failure
    (pages : Nat → PageResponse) (K fuel : Nat)
    (hK : 1 ≤ K)
    (hok : okNonEmptyUpto pages K)
    (hfail : (pages K).status ≠ 200)
    (hkeys : ∀ p ∈ List.range' 1 (K - 1), ∀ d ∈ (pages p).data,
               (extractRecord d).isSome)
    (hfuel : K ≤ fuel) :
    ∃ reqs res, get_user_stats pages fuel = some (reqs, some res) ∧
      reqs = List.range' 1 K ∧
      (∀ q ∈ reqs, q ≤ K) ∧
      res = ((List.range' 1 (K - 1)).map
               (fun p => (pages p).data.map projRecord)).flatten := by
  have hrun := collectAux_run pages K (okNonEmptyUpto_forall hok)
      (Or.inl hfail) fuel 1 [] [] (by omega) hK (by omega)
  have hK1 : K + 1 - 1 = K := by omega
  rw [hK1] at hrun
  refine ⟨List.range' 1 K,
    ((List.range' 1 (K - 1)).map
      (fun p => (pages p).data.map projRecord)).flatten, ?_, rfl, ?_, rfl⟩
  · unfold get_user_stats
    rw [hrun]
    simp only [Option.map_some', List.nil_append]
    have hall : ∀ d ∈ ((List.range' 1 (K - 1)).map
        (fun p => (pages p).data)).flatten, (extractRecord d).isSome := by
      intro d hd
      obtain ⟨l, hl, hdl⟩ := List.mem_flatten.mp hd
      obtain ⟨p, hp, rfl⟩ := List.mem_map.mp hl
      exact hkeys p hp d hdl
    rw [extract_data_eq_map _ hall]
    simp [List.map_flatten, List.map_map, Function.comp_def]
  · intro q hq
    rw [List.mem_range'_1] at hq
    omega

/-- Witness for C2 on the concrete server `pagesFail`, whose page 2 answers
status 500. -/
theorem collect_halts_on_failure_witness :
    ∃ reqs res, get_user_stats pagesFail 2 = some (reqs, some res) ∧
      reqs = List.range' 1 2 ∧
      (∀ q ∈ reqs, q ≤ 2) ∧
      res = ((List.range' 1 (2 - 1)).map
               (fun p => (pagesFail p).data.map projRecord)).flatten :=
  collect_halts_on_failure pagesFail 2 2 (by decide) (by decide) (by decide)
    (by decide) (by decide)

/-- C7: if pages `1..K-1` succeed non-empty and page `K` is the first empty
page, the loop terminates with exactly the projected records of pages
`1..K-1`, and page `K+1` is never requested. -/
theorem collect_stops_on_empty_page
    (pages : Nat → PageResponse) (K fuel : Nat)
    (hK : 1 ≤ K)
    (hok : okNonEmptyUpto pages K)
    (hstat : (pages K).status = 200)
    (hempty : (pages K).data = [])
    (hkeys : ∀ p ∈ List.range' 1 (K - 1), ∀ d ∈ (pages p).data,
               (extractRecord d).isSome)
    (hfuel : K ≤ fuel) :
    ∃ reqs res, get_user_stats pages fuel = some (reqs, some res) ∧
      reqs = List.range' 1 K ∧
      (K + 1) ∉ reqs ∧
      res = ((List.range' 1 (K - 1)).map
               (fun p => (pages p).data.map projRecord)).flatten := by
  have hrun := collectAux_run pages K (okNonEmptyUpto_forall hok)
      (Or.inr hempty) fuel 1 [] [] (by omega) hK (by omega)
  have hK1 : K + 1 - 1 = K := by omega
  rw [hK1] at hrun
  refine ⟨List.range' 1 K,
    ((List.range' 1 (K - 1)).map
      (fun p => (pages p).data.map projRecord)).flatten, ?_, rfl, ?_, rfl⟩
  · unfold get_user_stats
    rw [hrun]
    simp only [Option.map_some', List.nil_append]
    have hall : ∀ d ∈ ((List.range' 1 (K - 1)).map
        (fun p => (pages p).data)).flatten, (extractRecord d).isSome := by
      intro d hd
      obtain ⟨l, hl, hdl⟩ := List.mem_flatten.mp hd
      obtain ⟨p, hp, rfl⟩ := List.mem_map.mp hl
      exact hkeys p hp d hdl
    rw [extract_data_eq_map _ hall]
    simp [List.map_flatten, List.map_map, Function.comp_def]
  · rw [List.mem_range'_1]
    omega

/-- Witness for C7 on `pagesOk`, whose page 3 is the first empty page. -/
theorem collect_stops_on_empty_page_witness :
    ∃ reqs res, get_user_stats pagesOk 3 = some (reqs, some res) ∧
      reqs = List.range' 1 3 ∧
      (3 + 1) ∉ reqs ∧
      res = ((List.range' 1 (3 - 1)).map
               (fun p => (pagesOk p).data.map projRecord)).flatten :=
  collect_stops_on_empty_page pagesOk 3 3 (by decide) (by decide) (by decide)
    (by decide) (by decide) (by decide)

/-- C8: every record that `extract_data` produces carries exactly the three
fields `created_at`, `tags`, `content` (in that order), and each carried
value is the corresponding upstream value of some input record — no other
upstream field survives the projection. -/
theorem extract_projects_exactly_three_fields
    (l : List UpstreamRecord) (res : List (List (String × String)))
    (e : List (String × String))
    (hres : extract_data l = some res) (he : e ∈ res) :
    e.map Prod.fst = keys_to_extract ∧
    ∃ d ∈ l, ∀ k v, (k, v) ∈ e → d.lookup k = some v := by
  induction l generalizing res with
  | nil =>
      simp only [extract_data, Option.some.injEq] at hres
      subst hres
      simp at he
  | cons d rest ih =>
      simp only [extract_data] at hres
      cases hd : extractRecord d with
      | none => rw [hd] at hres; simp at hres
      | some e₀ =>
          rw [hd] at hres
          cases hrest : extract_data rest with
          | none => rw [hrest] at hres; simp at hres
          | some es =>
              rw [hrest] at hres
              simp only [Option.some.injEq] at hres
              subst hres
              rcases List.mem_cons.mp he with rfl | hee
              · unfold extractRecord at hd
                cases h1 : d.lookup "created_at" <;> rw [h1] at hd <;>
                  try simp at hd
                cases h2 : d.lookup "tags" <;> rw [h2] at hd <;>
                  try simp at hd
                cases h3 : d.lookup "content" <;> rw [h3] at hd <;>
                  try simp at hd
                subst hd
                refine ⟨by simp [keys_to_extract], d, List.mem_cons_self d rest, ?_⟩
                intro k v hkv
                simp only [List.mem_cons, List.not_mem_nil, or_false,
                  Prod.mk.injEq] at hkv
                rcases hkv with ⟨rfl, rfl⟩ | ⟨rfl, rfl⟩ | ⟨rfl, rfl⟩
                · exact h1
                · exact h2
                · exact h3
              · obtain ⟨hmap, d', hd', hv⟩ := ih es hrest hee
                exact ⟨hmap, d', List.mem_cons_of_mem d hd', hv⟩

/-- Witness for C8: the record of `pagesOk`'s page 2, projected. -/
theorem extract_projects_exactly_three_fields_witness :
    ([("created_at", "t3"), ("tags", "[b]"), ("content", "c3")] :
        List (String × String)).map Prod.fst = keys_to_extract ∧
    ∃ d ∈ [uOk "t3" "[b]" "c3"], ∀ k v,
      (k, v) ∈ ([("created_at", "t3"), ("tags", "[b]"), ("content", "c3")] :
        List (String × String)) → d.lookup k = some v :=
  extract_projects_exactly_three_fields [uOk "t3" "[b]" "c3"]
    [[("created_at", "t3"), ("tags", "[b]"), ("content", "c3")]]
    [("created_at", "t3"), ("tags", "[b]"), ("content", "c3")]
    (by decide) (by decide)

/-- C10: if pagination completes but some accumulated record lacks one of the
three keys, the projection fails and the whole result is lost (`none`), all
collected pages included; conversely the projection succeeds whenever every
record carries all three keys. -/
theorem extract_missing_key_loses_all :
    (∀ (pages : Nat → PageResponse) (fuel : Nat) (reqs : List Nat)
        (raw : List UpstreamRecord),
        collectAux pages fuel 1 [] [] = some (reqs, raw) →
        (∃ d ∈ raw, extractRecord d = none) →
        get_user_stats pages fuel = some (reqs, none)) ∧
    (∀ l : List UpstreamRecord,
        (∀ d ∈ l, (extractRecord d).isSome) → (extract_data l).isSome) := by
  constructor
  · intro pages fuel reqs raw hrun hbad
    unfold get_user_stats
    rw [hrun]
    simp only [Option.map_some']
    rw [extract_data_eq_none raw hbad]
  · intro l h
    rw [extract_data_eq_map l h]
    rfl

/-- Witness for C10 on `pagesBadRecord`, whose single record lacks
`content`: the one successfully fetched record is discarded. -/
theorem extract_missing_key_loses_all_witness :
    get_user_stats pagesBadRecord 3 = some ([1, 2], none) :=
  extract_missing_key_loses_all.1 pagesBadRecord 3 [1, 2] [uBad]
    (by decide) ⟨uBad, by decide, by decide⟩

/-! ### Aggregator lemmas -/

/-- The non-null values left after exploding are precisely the concatenated
per-record tag sequences: the `NaN` row of an empty-tag post is dropped
again by `value_counts`. -/
theorem tagValues_eq_flat (content : List PostRecord) :
    tagValues content = content.flatMap (fun r => r.tags) := by
  unfold tagValues explodedTags
  induction content with
  | nil => rfl
  | cons r rest ih =>
      rw [List.flatMap_cons, List.flatMap_cons, List.filterMap_append, ih]
      by_cases h : r.tags = []
      · simp [h]
      · simp [h, List.filterMap_map, Function.comp_def, List.filterMap_some]

/-- C6: the values of the tag table sum to the total number of tag
occurrences — a record with `N` tags contributes `N`, a record with no tags
contributes `0`. -/
theorem tags_count_total (content : List PostRecord) :
    ((tags_count content).map Prod.snd).sum =
      (content.map (fun r => r.tags.length)).sum := by
  unfold tags_count
  rw [List.map_map]
  have hperm :
      List.Perm
        (List.insertionSort
          (fun a b =>
            (tagValues content).count b ≤ (tagValues content).count a)
          (tagValues content).dedup)
        (tagValues content).dedup :=
    List.perm_insertionSort _ _
  have hsum :
      ((List.insertionSort
          (fun a b =>
            (tagValues content).count b ≤ (tagValues content).count a)
          (tagValues content).dedup).map
        (Prod.snd ∘ fun t => (t, (tagValues content).count t))).sum =
      ((tagValues content).dedup.map
        (Prod.snd ∘ fun t => (t, (tagValues content).count t))).sum :=
    (hperm.map _).sum_eq
  rw [hsum]
  have : ((tagValues content).dedup.map
      (Prod.snd ∘ fun t => (t, (tagValues content).count t))).sum =
      ((tagValues content).dedup.map
        (fun t => (tagValues content).count t)).sum := by
    simp [Function.comp_def]
  rw [this, List.sum_map_count_dedup_eq_length, tagValues_eq_flat,
    List.flatMap]
  simp [List.length_flatten, List.map_map, Function.comp_def]

/-- C3 counterexample: a single post at 10:30 is a non-empty input whose
hour table has one row `(10, 1)` — not 24 rows, and no zero rows for the
other 23 hours. -/
theorem hour_counts_counterexample :
    ([postTen] ≠ ([] : List PostRecord)) ∧
    hour_of_day_count [postTen] = [(10, 1)] ∧
    (hour_of_day_count [postTen]).length ≠ 24 := by
  refine ⟨by simp, by decide, by decide⟩

/-- C3 amended: the hour table lists exactly the distinct hours that occur
in the input, in strictly ascending order; each listed hour carries its
(positive) post count and lies in `0..23`.  Hours with no posts are absent
rather than zero-filled. -/
theorem hour_counts_sparse (content : List PostRecord) (hc : content ≠ []) :
    ((hour_of_day_count content).map Prod.fst).Pairwise (· < ·) ∧
    (∀ h n, (h, n) ∈ hour_of_day_count content ↔
        (h ∈ hoursOf content ∧ n = (hoursOf content).count h)) ∧
    (∀ x ∈ hour_of_day_count content, x.1 < 24 ∧ 0 < x.2) := by
  have hmem_sort : ∀ h : Nat,
      h ∈ List.insertionSort (· ≤ ·) (hoursOf content).dedup ↔
        h ∈ hoursOf content := by
    intro h
    rw [List.mem_insertionSort, List.mem_dedup]
  have hpair : ∀ h n, (h, n) ∈ hour_of_day_count content ↔
      (h ∈ hoursOf content ∧ n = (hoursOf content).count h) := by
    intro h n
    constructor
    · intro hmem
      obtain ⟨k, hk, heq⟩ := List.mem_map.mp hmem
      obtain ⟨rfl, rfl⟩ := Prod.mk.injEq .. ▸ heq
      exact ⟨(hmem_sort k).mp hk, rfl⟩
    · rintro ⟨hh, rfl⟩
      exact List.mem_map.mpr ⟨h, (hmem_sort h).mpr hh, rfl⟩
  refine ⟨?_, hpair, ?_⟩
  · have hfst : (hour_of_day_count content).map Prod.fst =
        List.insertionSort (· ≤ ·) (hoursOf content).dedup := by
      simp [hour_of_day_count, List.map_map, Function.comp_def]
    rw [hfst]
    exact (List.sorted_insertionSort _ _).lt_of_le
      ((List.perm_insertionSort _ _).nodup_iff.mpr (List.nodup_dedup _))
  · rintro ⟨h, n⟩ hx
    obtain ⟨hh, rfl⟩ := (hpair h n).mp hx
    constructor
    · obtain ⟨r, _, rfl⟩ := List.mem_map.mp hh
      unfold hourOf
      omega
    · exact List.count_pos_iff.mpr hh

/-- Witness for the amended C3 on the single-post input. -/
theorem hour_counts_sparse_witness :
    ((hour_of_day_count [postTen]).map Prod.fst).Pairwise (· < ·) ∧
    (10, 1) ∈ hour_of_day_count [postTen] := by
  have h := hour_counts_sparse [postTen] (by simp)
  exact ⟨h.1, (h.2.1 10 1).mpr (by decide)⟩

/-- C4 counterexample: for a single Monday post the Tuesday row is the
missing marker `NaN` (`none`), not an explicit zero — `reindex` is called
without `fill_value`. -/
theorem weekday_counts_counterexample :
    ([postMonday] ≠ ([] : List PostRecord)) ∧
    ("Wtorek", (none : Option Nat)) ∈ day_of_week_count [postMonday] ∧
    ("Wtorek", some 0) ∉ day_of_week_count [postMonday] := by
  refine ⟨by simp, by decide, by decide⟩

/-- C4 amended: the weekday table always has exactly the 7 labels of
`day_of_week_order`, Monday first, in that order; a weekday that occurs
carries its (positive) post count and an absent weekday carries the missing
marker `NaN` (`none`) rather than zero. -/
theorem weekday_counts_reindexed (content : List PostRecord)
    (hc : content ≠ []) :
    (day_of_week_count content).map Prod.fst = day_of_week_order ∧
    (day_of_week_count content).length = 7 ∧
    ∀ d v, (d, v) ∈ day_of_week_count content →
      (v = none ↔ (dayNamesOf content).count d = 0) ∧
      (∀ n, v = some n → n = (dayNamesOf content).count d ∧ 0 < n) := by
  refine ⟨?_, ?_, ?_⟩
  · simp [day_of_week_count, List.map_map, Function.comp_def]
  · simp [day_of_week_count, day_of_week_order]
  · intro d v hmem
    obtain ⟨d', hd', heq⟩ := List.mem_map.mp hmem
    obtain ⟨rfl, rfl⟩ := Prod.mk.injEq .. ▸ heq
    by_cases h : (dayNamesOf content).count d' = 0
    · simp [h]
    · constructor
      · simp [h]
      · intro n hn
        rw [if_neg h] at hn
        simp only [Option.some.injEq] at hn
        omega

/-- Witness for the amended C4 on the single-Monday-post input. -/
theorem weekday_counts_reindexed_witness :
    (day_of_week_count [postMonday]).map Prod.fst = day_of_week_order ∧
    (day_of_week_count [postMonday]).length = 7 := by
  have h := weekday_counts_reindexed [postMonday] (by simp)
  exact ⟨h.1, h.2.1⟩

/-- Counting a value in a mapped-out column equals counting the records the
value came from. -/
theorem count_map_eq_length_filter (f : PostRecord → Nat)
    (content : List PostRecord) (n : Nat) :
    (content.map f).count n = (content.filter (fun r => f r = n)).length := by
  induction content with
  | nil => rfl
  | cons r rest ih =>
      by_cases h : f r = n
      · simp [List.count_cons, List.filter_cons, h, ih]
      · simp [List.count_cons, List.filter_cons, h, ih]

/-- C5: the daily table has one row per calendar day of the inclusive range
`[min date, max date]`, in order; each row's value is the number of posts of
that day, so days with no posts hold an explicit `0` (`fill_value=0`). -/
theorem daily_counts_dense (content : List PostRecord) (lo hi : Nat)
    (hlo : (datesOf content).min? = some lo)
    (hhi : (datesOf content).max? = some hi) :
    lo ≤ hi ∧
    (posts_over_time content).length = hi - lo + 1 ∧
    ∀ i, i < hi - lo + 1 →
      (posts_over_time content)[i]? =
        some (lo + i,
          (content.filter
            (fun r => dateOf r.created_at = lo + i)).length) := by
  obtain ⟨hlomem, hlole⟩ := List.min?_eq_some_iff'.mp hlo
  obtain ⟨hhimem, hhige⟩ := List.max?_eq_some_iff'.mp hhi
  have hpot : posts_over_time content =
      (List.range (hi - lo + 1)).map
        (fun i => (lo + i, (datesOf content).count (lo + i))) := by
    unfold posts_over_time
    rw [hlo, hhi]
  refine ⟨hhige lo hlomem, ?_, ?_⟩
  · rw [hpot]; simp
  · intro i hilt
    rw [hpot, List.getElem?_map, List.getElem?_range hilt]
    have : (datesOf content).count (lo + i) =
        (content.filter (fun r => dateOf r.created_at = lo + i)).length :=
      count_map_eq_length_filter _ content (lo + i)
    simp [this]

/-- Witness for C5: two posts on days 0 and 4 with nothing in between give a
five-row table whose middle rows are explicit zeros. -/
theorem daily_counts_dense_witness :
    (posts_over_time sparseWeek).length = 5 ∧
    (posts_over_time sparseWeek)[2]? = some (2, 0) := by
  have h := daily_counts_dense sparseWeek 0 4 (by decide) (by decide)
  refine ⟨h.2.1, ?_⟩
  have h2 := h.2.2 2 (by omega)
  have h3 : (sparseWeek.filter
      (fun r => dateOf r.created_at = 0 + 2)).length = 0 := by decide
  rw [h3] at h2
  exact h2

/-- C9: `main` renders the no-data message on an empty collection and only
ever hands a non-empty collection to `generate_charts`, so no aggregation
(in particular no min/max date range) runs on empty input. -/
theorem empty_result_skips_charts :
    mainDispatch [] = Display.noData ∧
    ∀ stats : List PostRecord, stats ≠ [] →
      mainDispatch stats = Display.charts stats := by
  constructor
  · rfl
  · intro s hs
    simp [mainDispatch, hs]

/-- Witness for C9. -/
theorem empty_result_skips_charts_witness :
    mainDispatch [] = Display.noData ∧
    mainDispatch [postTen] = Display.charts [postTen] :=
  ⟨empty_result_skips_charts.1,
   empty_result_skips_charts.2 [postTen] (by simp)⟩

end WykopScreener
